import Mathlib

/-!
cc-go: command correlation engine and payload tag helpers

A shallow embedding of

* `processor.go`  : `makeSyncRequestProcessor`, `makeSyncResponseProcessor`
* `znp.go`        : the two branches of `Znp.startProcessor`, the two statements of its
  deadline goroutine, and runs that interleave them
* `payload/payload.go` : `bitmaskBits`, `order`
* `util/util.go`  : `FirstBitPosition`

Go values are embedded as follows.  A `byte` is a `Nat` below 256, a `uint64` is a `Nat`
taken modulo `2 ^ 64`, a Go `string` is the list of its bytes, a channel is named by a
`Nat` handle and a send on it is recorded in a trace of `Effect`s.  A function that may
panic returns an `Outcome`.
-/

namespace CcGo

/-! ## Shared data model -/

/-- Result of running a Go function body: it either returns or panics. -/
inductive Outcome (α : Type) where
  | returned (a : α)
  | panicked (msg : String)
  deriving DecidableEq, Repr

/-- The `unp.CommandType` values the engine compares against; every other value of the
external enumeration is `other`. -/
inductive CommandType where
  | C_SREQ
  | C_AREQ
  | C_SRSP
  | other (n : Nat)
  deriving DecidableEq, Repr

/-- The type `unp.Subsystem`: a small enumerated value carried in one byte. -/
abbrev Subsystem := Nat

/-- The type `unp.Frame`. -/
structure Frame where
  CommandType : CommandType
  Subsystem : Subsystem
  Command : Nat
  Payload : List Nat
  deriving DecidableEq, Repr

/-- An argument handed to `fmt.Errorf`. -/
inductive Arg where
  | byte (b : Nat)
  | subsystem (s : Subsystem)
  | commandType (c : CommandType)
  | frame (f : Frame)
  deriving DecidableEq, Repr

/-- A Go `error` value: built by `errors.New` from a text, or by `fmt.Errorf` from a format
string and its arguments (kept unrendered, the `String` method of `unp.Subsystem` being
external). -/
inductive GoError where
  | New (text : String)
  | Errorf (format : String) (args : List Arg)
  deriving DecidableEq, Repr

/-- State of a `time.Timer`. -/
inductive Timer where
  | armed
  | expired
  | stopped
  deriving DecidableEq, Repr

/-- The method `(*time.Timer).Stop`: reports `true` when the call stops the timer, `false`
when the timer has already expired or been stopped. -/
def Timer.Stop : Timer → Bool × Timer
  | Timer.armed => (true, Timer.stopped)
  | Timer.expired => (false, Timer.expired)
  | Timer.stopped => (false, Timer.stopped)

/-- Modelled from the spec: the absent struct `deadline` that `znp.go` builds from a timer
and a `cancelled` channel, a timer armed at registration plus a cancellation signal; the
fields are the handles of the two. -/
structure deadline where
  timer : Nat
  cancelled : Nat
  deriving DecidableEq, Repr

/-- One observable action of the engine.  Channels are named by `Nat` handles. -/
inductive Effect where
  /-- `znp.Errors <- e` -/
  | Errors (e : GoError)
  /-- `znp.AsyncInbound <- frame` -/
  | AsyncInbound (f : Frame)
  /-- a send of a frame on the response sink `ch` of a request -/
  | SyncRsp (ch : Nat) (f : Frame)
  /-- a send of an error on the error sink `ch` of a request -/
  | SyncErr (ch : Nat) (e : GoError)
  /-- a call of the absent method `Cancel` on the deadline `d` -/
  | Cancel (d : deadline)
  /-- a write of the frame to the transport -/
  | Write (f : Frame)
  /-- a send of the frame on a frame logger channel -/
  | Log (f : Frame)
  deriving DecidableEq, Repr

/-! ## processor.go -/

namespace processor

/-- Modelled from the spec: the type `request.Sync` of the absent package `request`, a
frame together with the private response sink and error sink of its caller (the accessors
`Frame()`, `SyncRsp()` and `SyncErr()` are the three fields). -/
structure Sync where
  Frame : Frame
  SyncRsp : Nat
  SyncErr : Nat
  deriving DecidableEq, Repr

/-- A value sent on one of the two channels shared by the request processor and the
response processor. -/
inductive Shared where
  | syncErr (e : GoError)
  | syncRsp (f : Frame)
  deriving DecidableEq, Repr

/-- The function `logFrame`. -/
def logFrame (frame : Frame) (log : Bool) : List Effect :=
  if log then [Effect.Log frame] else []

/-- The function returned by `makeSyncResponseProcessor`: the list of sends it performs on
the shared channels `syncRsp` and `syncErr`.  `S_RES0` is the constant `unp.S_RES0`. -/
def makeSyncResponseProcessor (S_RES0 : Subsystem) (frame : Frame) : Outcome (List Shared) :=
  if frame.Subsystem = S_RES0 ∧ frame.Command = 0 then
    match frame.Payload with
    | [] => Outcome.panicked "runtime error: index out of range [0] with length 0"
    | errorCode :: _ =>
      let errorMessage : String :=
        match errorCode with
        | 1 => "Invalid subsystem"
        | 2 => "Invalid command ID"
        | 3 => "Invalid parameter"
        | 4 => "Invalid length"
        | _ => ""
      Outcome.returned [Shared.syncErr (GoError.New errorMessage)]
  else
    Outcome.returned [Shared.syncRsp frame]

/-- The case of the `select` in `makeSyncRequestProcessor` that fires. -/
inductive Select where
  | deadline
  | response (f : Frame)
  | err (e : GoError)
  deriving DecidableEq, Repr

/-- The function returned by `makeSyncRequestProcessor`, run on `req` when the given case
of its `select` fires: the frame is logged and written, then the outcome of the case is
sent on the sinks of `req`.  A value is received from `deadline.C` only once the timer has
expired. -/
def makeSyncRequestProcessor (logOutFrames : Bool) (req : Sync) (sel : Select) : List Effect :=
  let frame := req.Frame
  logFrame frame logOutFrames ++ [Effect.Write frame] ++
    match sel with
    | Select.deadline =>
      if !(Timer.Stop Timer.expired).1 then
        [Effect.SyncErr req.SyncErr
          (GoError.Errorf "timed out while waiting response for command: 0x%x sent to subsystem: %s "
            [Arg.byte frame.Command, Arg.subsystem frame.Subsystem])]
      else []
    | Select.response response => [Effect.SyncRsp req.SyncRsp response]
    | Select.err e => [Effect.SyncErr req.SyncErr e]

/-- The hand-over on the unbuffered shared channels: the response processor runs on an
inbound frame while the request processor is blocked in its `select` for `req`, and the
value the former sends is the value the latter receives. -/
def handOver (S_RES0 : Subsystem) (logOutFrames : Bool) (req : Sync) (frame : Frame) :
    Outcome (List Effect) :=
  match makeSyncResponseProcessor S_RES0 frame with
  | Outcome.panicked msg => Outcome.panicked msg
  | Outcome.returned sends =>
    Outcome.returned (sends.flatMap fun s =>
      match s with
      | Shared.syncRsp f => makeSyncRequestProcessor logOutFrames req (Select.response f)
      | Shared.syncErr e => makeSyncRequestProcessor logOutFrames req (Select.err e))

end processor

/-! ## znp.go -/

namespace znp

/-- The struct `Sync`: a frame and the private sinks of its caller. -/
structure Sync where
  frame : Frame
  syncRsp : Nat
  syncErr : Nat
  deriving DecidableEq, Repr

/-- The struct `Async`. -/
structure Async where
  frame : Frame
  deriving DecidableEq, Repr

/-- The interface `Outgoing` with its two implementations. -/
inductive Outgoing where
  | sync (req : Sync)
  | async (req : Async)
  deriving DecidableEq, Repr

/-- Modelled from the spec: the absent struct `registryKey`, the correlation key
(subsystem, command) that matches a reply to its originating request. -/
structure registryKey where
  Subsystem : Subsystem
  Command : Nat
  deriving DecidableEq, Repr

/-- Modelled from the spec: the absent struct `registryValue`, the bookkeeping of a pending
synchronous request (response sink, error sink, deadline). -/
structure registryValue where
  syncRsp : Nat
  syncErr : Nat
  deadline : deadline
  deriving DecidableEq, Repr

/-- Modelled from the spec: the absent type `RequestRegistry`, a map from the correlation
key (subsystem, command) to the bookkeeping of the currently pending synchronous request,
held as an association list with at most one entry per key. -/
structure RequestRegistry where
  entries : List (registryKey × registryValue)
  deriving DecidableEq, Repr

/-- Modelled from the spec: the absent constructor `NewRequestRegistry`, the empty map. -/
def NewRequestRegistry : RequestRegistry := ⟨[]⟩

/-- Modelled from the spec: the absent method `Unregister`, removal of the entry of a key. -/
def RequestRegistry.Unregister (registry : RequestRegistry) (key : registryKey) : RequestRegistry :=
  ⟨registry.entries.filter fun e => decide (e.1 ≠ key)⟩

/-- Modelled from the spec: the absent method `Register`, insertion of an entry, which
overwrites the entry of a request with the same key. -/
def RequestRegistry.Register (registry : RequestRegistry) (key : registryKey)
    (value : registryValue) : RequestRegistry :=
  ⟨(key, value) :: (registry.Unregister key).entries⟩

/-- Modelled from the spec: the absent method `Get`, lookup of the entry of a key (the
`none` result is the `ok == false` result of the source). -/
def RequestRegistry.Get (registry : RequestRegistry) (key : registryKey) : Option registryValue :=
  (registry.entries.find? fun e => decide (e.1 = key)).map Prod.snd

/-- The `case outgoing := <-znp.outbound` branch of `startProcessor`; `d` is the deadline
freshly allocated for a synchronous request (its goroutine is `deadlineSelect` followed by `deadlineUnregister`). -/
def startProcessor.outbound (registry : RequestRegistry) (outgoing : Outgoing) (d : deadline) :
    RequestRegistry × List Effect :=
  match outgoing with
  | Outgoing.sync req =>
    let frame := req.frame
    let key : registryKey := ⟨frame.Subsystem, frame.Command⟩
    let value : registryValue := ⟨req.syncRsp, req.syncErr, d⟩
    (registry.Register key value, [Effect.Write req.frame])
  | Outgoing.async req => (registry, [Effect.Write req.frame])

/-- The case of the `select` in the deadline goroutine that fires. -/
inductive DeadlineSelect where
  | timerC
  | cancelled
  deriving DecidableEq, Repr

/-- The `select` statement of the goroutine that `startProcessor` starts for a synchronous
request, with the body of the case that fires.  It does not touch the registry.  A value
is received from `deadline.timer.C` only once the timer has expired. -/
def startProcessor.deadlineSelect (req : Sync) (sel : DeadlineSelect) : List Effect :=
  let frame := req.frame
  match sel with
  | DeadlineSelect.timerC =>
    if !(Timer.Stop Timer.expired).1 then
      [Effect.SyncErr req.syncErr
        (GoError.Errorf "timed out while waiting response for command: %b sent to subsystem: %s "
          [Arg.byte frame.Command, Arg.subsystem frame.Subsystem])]
    else []
  | DeadlineSelect.cancelled => []

/-- The statement `registry.Unregister(key)` that the goroutine of a synchronous request
runs after its `select`. -/
def startProcessor.deadlineUnregister (registry : RequestRegistry) (req : Sync) :
    RequestRegistry :=
  let frame := req.frame
  let key : registryKey := ⟨frame.Subsystem, frame.Command⟩
  registry.Unregister key

/-- The `case frame := <-znp.inbound` branch of `startProcessor`. -/
def startProcessor.inbound (registry : RequestRegistry) (frame : Frame) :
    RequestRegistry × List Effect :=
  if frame.CommandType = CommandType.C_SRSP then
    let key : registryKey := ⟨frame.Subsystem, frame.Command⟩
    match registry.Get key with
    | none =>
      (registry, [Effect.Errors (GoError.Errorf "Unknown response received: %v" [Arg.frame frame])])
    | some value => (registry, [Effect.Cancel value.deadline, Effect.SyncRsp value.syncRsp frame])
  else
    (registry, [Effect.AsyncInbound frame])

/-- One step of the running engine.  The main loop of `startProcessor` takes its outbound
or its inbound branch; the goroutine of a request runs its `select`, or the `Unregister`
after it.  Each step reads or writes the registry at most once, so a run of the engine is
a sequence of such steps, the goroutines interleaving between them. -/
inductive Event where
  | outbound (outgoing : Outgoing) (d : deadline)
  | inbound (frame : Frame)
  | deadlineSelect (req : Sync) (sel : DeadlineSelect)
  | deadlineUnregister (req : Sync)
  deriving DecidableEq, Repr

/-- The effect of one step on the registry, and the trace of the step. -/
def step (registry : RequestRegistry) : Event → RequestRegistry × List Effect
  | Event.outbound outgoing d => startProcessor.outbound registry outgoing d
  | Event.inbound frame => startProcessor.inbound registry frame
  | Event.deadlineSelect req sel => (registry, startProcessor.deadlineSelect req sel)
  | Event.deadlineUnregister req => (startProcessor.deadlineUnregister registry req, [])

/-- A run of the engine: the steps in the order in which they happen. -/
def run (registry : RequestRegistry) : List Event → RequestRegistry × List Effect
  | [] => (registry, [])
  | e :: es =>
    let r := run (step registry e).1 es
    (r.1, (step registry e).2 ++ r.2)

/-- The step is the outbound branch taking a synchronous request with the given key. -/
def Event.registers (key : registryKey) : Event → Bool
  | Event.outbound (Outgoing.sync req) _ =>
    decide ((⟨req.frame.Subsystem, req.frame.Command⟩ : registryKey) = key)
  | _ => false

end znp

/-! ## strconv.ParseUint (Go standard library) -/

namespace strconv

/-- The error kinds of `strconv.NumError` that `ParseUint` reports. -/
inductive NumError where
  | ErrSyntax
  | ErrRange
  | ErrBase
  | ErrBitSize
  deriving DecidableEq, Repr

/-- The helper `lower`: `c | ('x' - 'X')`. -/
def lower (c : Nat) : Nat := c ||| 32

/-- The digit switch of `ParseUint` for an explicit base: the value of the byte as a digit,
`none` for a byte that is no digit of any base. -/
def digit (c : Nat) : Option Nat :=
  if 48 ≤ c ∧ c ≤ 57 then some (c - 48)
  else if 97 ≤ lower c ∧ lower c ≤ 122 then some (lower c - 97 + 10)
  else none

/-- The loop of `ParseUint` over the bytes of the input, with the accumulator `n`. -/
def ParseUint.loop (base cutoff maxVal : Nat) : List Nat → Nat → Nat × Option NumError
  | [], n => (n, none)
  | c :: cs, n =>
    match digit c with
    | none => (0, some NumError.ErrSyntax)
    | some d =>
      if d ≥ base then (0, some NumError.ErrSyntax)
      else if n ≥ cutoff then (maxVal, some NumError.ErrRange)
      else
        let n0 := (n * base) % 2 ^ 64
        let n1 := (n0 + d) % 2 ^ 64
        if n1 < n0 ∨ n1 > maxVal then (maxVal, some NumError.ErrRange)
        else ParseUint.loop base cutoff maxVal cs n1

/-- The function `strconv.ParseUint(s, base, bitSize)` for an explicit base between 2 and
36, as `bitmaskBits` calls it (the prefix detection of base 0 is not part of the model):
the value and the error it returns. -/
def ParseUint (s : List Nat) (base : Nat) (bitSize : Nat) : Nat × Option NumError :=
  if s = [] then (0, some NumError.ErrSyntax)
  else if ¬ (2 ≤ base ∧ base ≤ 36) then (0, some NumError.ErrBase)
  else if bitSize > 64 then (0, some NumError.ErrBitSize)
  else
    let bitSize := if bitSize = 0 then 64 else bitSize
    let cutoff := (2 ^ 64 - 1) / base + 1
    let maxVal := ((1 <<< bitSize) % 2 ^ 64 + 2 ^ 64 - 1) % 2 ^ 64
    ParseUint.loop base cutoff maxVal s 0

end strconv

/-! ## payload/payload.go -/

namespace payload

/-- The type `tag`, a Go string: the list of its bytes. -/
abbrev tag := List Nat

/-- The bytes of an ASCII string literal. -/
def ascii (s : String) : tag := s.toList.map Char.toNat

/-- The two values of `binary.ByteOrder` that `order` returns. -/
inductive ByteOrder where
  | BigEndian
  | LittleEndian
  deriving DecidableEq, Repr

/-- The method `Uint16` of `binary.BigEndian` and `binary.LittleEndian`. -/
def ByteOrder.Uint16 : ByteOrder → List Nat → Outcome Nat
  | ByteOrder.BigEndian, b0 :: b1 :: _ => Outcome.returned (b1 ||| (b0 <<< 8))
  | ByteOrder.LittleEndian, b0 :: b1 :: _ => Outcome.returned (b0 ||| (b1 <<< 8))
  | _, _ => Outcome.panicked "runtime error: index out of range"

/-- The function `bitmaskBits`. -/
def bitmaskBits (value : tag) : Outcome Nat :=
  if value.length < 2 then
    Outcome.panicked "runtime error: slice bounds out of range"
  else
    let pfx := value.take 2
    let bitmask := value.drop 2
    -- the bytes of "0x" are 48, 120 and the bytes of "0b" are 48, 98
    if pfx = [48, 120] then
      Outcome.returned (strconv.ParseUint bitmask 16 (bitmask.length * 4)).1
    else if pfx = [48, 98] then
      Outcome.returned (strconv.ParseUint bitmask 2 bitmask.length).1
    else
      Outcome.panicked ("Unsupported prefix: " ++ String.mk (pfx.map Char.ofNat))

/-- The function `order`. -/
def order (endianness : tag) : ByteOrder :=
  -- the bytes of "be" are 98, 101
  if endianness = [98, 101] then ByteOrder.BigEndian else ByteOrder.LittleEndian

end payload

/-! ## util/util.go -/

namespace util

/-- Negation of a `uint64`: `-n` modulo `2 ^ 64`. -/
def neg64 (n : Nat) : Nat := (2 ^ 64 - n % 2 ^ 64) % 2 ^ 64

/-- Number of binary digits of `x`, with fuel. -/
def bitLength.go : Nat → Nat → Nat
  | 0, _ => 0
  | fuel + 1, x => if x = 0 then 0 else bitLength.go fuel (x / 2) + 1

/-- Number of binary digits of a `uint64`. -/
def bitLength (x : Nat) : Nat := bitLength.go 64 x

/-- The conversion `float64(x)` of a `uint64`, where it is exact: `x` keeps its value when
its binary digits from the leading one to the last one span at most 53 places.  Other
values are rounded by the hardware and are `none` here. -/
def float64 (x : Nat) : Option Nat :=
  if bitLength x ≤ 53 ∨ x % 2 ^ (bitLength x - 53) = 0 then some x else none

/-- The function `math.Frexp` on a positive integer-valued float: `x = frac * 2 ^ exp`
with `frac` in `[1/2, 1)`; the result is the numerator of `frac` over `2 ^ exp`, and
`exp`. -/
def Frexp (x : Nat) : Nat × Nat := (x, bitLength x)

/-- The function `math.Log2` on a non-negative integer-valued float.  For an exact power
of two `Frexp` gives the fraction `0.5` and the result is `float64(exp - 1)`.  The other
results (`-Inf` at zero, and `Log(frac)*(1/Ln2) + float64(exp)`) are `none` here. -/
def Log2 (x : Nat) : Option Nat :=
  if x = 0 then none
  else
    let (frac, exp) := Frexp x
    if 2 * frac = 2 ^ exp then some (exp - 1) else none

/-- The function `FirstBitPosition`: `uint8(math.Log2(float64(n & -n)))`.  The conversion
to `uint8` of a float outside `[0, 256)` is implementation-specific and is `none` here. -/
def FirstBitPosition (n : Nat) : Option Nat :=
  match float64 (n &&& neg64 n) with
  | none => none
  | some x =>
    match Log2 x with
    | none => none
    | some l => if l < 256 then some l else none

end util

/-! ## Vocabulary of the specification -/

namespace spec

/-- Spec side: the byte is a hexadecimal digit, `0`-`9`, `a`-`f` or `A`-`F`. -/
def isHexDigit (c : Nat) : Prop :=
  (48 ≤ c ∧ c ≤ 57) ∨ (97 ≤ c ∧ c ≤ 102) ∨ (65 ≤ c ∧ c ≤ 70)

instance : DecidablePred isHexDigit := fun c => by
  unfold isHexDigit
  infer_instance

/-- Spec side: the value a hexadecimal digit stands for. -/
def hexDigitValue (c : Nat) : Nat :=
  if c ≤ 57 then c - 48 else if 97 ≤ c then c - 97 + 10 else c - 65 + 10

/-- Spec side: the byte is a binary digit, `0` or `1`. -/
def isBinDigit (c : Nat) : Prop := c = 48 ∨ c = 49

instance : DecidablePred isBinDigit := fun c => by
  unfold isBinDigit
  infer_instance

/-- Spec side: the value a binary digit stands for. -/
def binDigitValue (c : Nat) : Nat := c - 48

/-- Spec side: the number that the digit bytes `ds`, most significant first, denote in the
given base. -/
def denote (base : Nat) (digitValue : Nat → Nat) (ds : List Nat) : Nat :=
  Nat.ofDigits base (ds.map digitValue).reverse

end spec

/-! ## Theorems: processor.go -/

/-- C1: for a generic error frame (subsystem `S_RES0`, command 0) whose payload is the
single byte `c` with `c` among 1, 2, 3, 4, the response processor sends exactly one error
on the error sink and nothing on the response sink, and its text is the table entry of
`c`; every frame that is not `(S_RES0, 0)` is sent unchanged on the response sink and
nothing goes to the error sink. -/
theorem C1_sync_response_processor (S_RES0 : Subsystem) (frame : Frame) :
    (frame.Subsystem = S_RES0 → frame.Command = 0 →
      (frame.Payload = [1] →
        processor.makeSyncResponseProcessor S_RES0 frame
          = Outcome.returned [processor.Shared.syncErr (GoError.New "Invalid subsystem")]) ∧
      (frame.Payload = [2] →
        processor.makeSyncResponseProcessor S_RES0 frame
          = Outcome.returned [processor.Shared.syncErr (GoError.New "Invalid command ID")]) ∧
      (frame.Payload = [3] →
        processor.makeSyncResponseProcessor S_RES0 frame
          = Outcome.returned [processor.Shared.syncErr (GoError.New "Invalid parameter")]) ∧
      (frame.Payload = [4] →
        processor.makeSyncResponseProcessor S_RES0 frame
          = Outcome.returned [processor.Shared.syncErr (GoError.New "Invalid length")])) ∧
    (¬ (frame.Subsystem = S_RES0 ∧ frame.Command = 0) →
      processor.makeSyncResponseProcessor S_RES0 frame
        = Outcome.returned [processor.Shared.syncRsp frame]) := by
  refine ⟨?_, ?_⟩
  · intro hs hc
    refine ⟨?_, ?_, ?_, ?_⟩ <;> intro hp <;>
      simp [processor.makeSyncResponseProcessor, hs, hc, hp]
  · intro h
    simp [processor.makeSyncResponseProcessor, h]

/-- Witness of C1: the payload byte `0x03` gives "Invalid parameter", and a frame with the
key (1, 2) is passed on unchanged. -/
theorem C1_sync_response_processor_witness :
    processor.makeSyncResponseProcessor 0 ⟨CommandType.C_SRSP, 0, 0, [3]⟩
      = Outcome.returned [processor.Shared.syncErr (GoError.New "Invalid parameter")] ∧
    processor.makeSyncResponseProcessor 0 ⟨CommandType.C_SRSP, 1, 2, [3]⟩
      = Outcome.returned [processor.Shared.syncRsp ⟨CommandType.C_SRSP, 1, 2, [3]⟩] :=
  ⟨((C1_sync_response_processor 0 ⟨CommandType.C_SRSP, 0, 0, [3]⟩).1 rfl rfl).2.2.1 rfl,
   (C1_sync_response_processor 0 ⟨CommandType.C_SRSP, 1, 2, [3]⟩).2 (by decide)⟩

/-- C2: on a generic error frame whose payload byte is 0, or any code from 5 upwards, the
`switch` of the response processor matches no case and the error delivered on the error
sink has the empty text, not an "unknown" message. -/
theorem C2_unknown_code_empty_text (S_RES0 : Subsystem) (ct : CommandType) (c : Nat)
    (tail : List Nat) :
    processor.makeSyncResponseProcessor S_RES0 ⟨ct, S_RES0, 0, 0 :: tail⟩
      = Outcome.returned [processor.Shared.syncErr (GoError.New "")] ∧
    processor.makeSyncResponseProcessor S_RES0 ⟨ct, S_RES0, 0, (c + 5) :: tail⟩
      = Outcome.returned [processor.Shared.syncErr (GoError.New "")] := by
  constructor <;> simp [processor.makeSyncResponseProcessor]

/-- C10: on a generic error frame (subsystem `S_RES0`, command 0) with an empty payload the
response processor panics at `frame.Payload[0]` and sends nothing. -/
theorem C10_empty_payload_panics (S_RES0 : Subsystem) (ct : CommandType) :
    processor.makeSyncResponseProcessor S_RES0 ⟨ct, S_RES0, 0, []⟩
      = Outcome.panicked "runtime error: index out of range [0] with length 0" := by
  simp [processor.makeSyncResponseProcessor]

/-- C5, counterexample: while the request with key (subsystem 1, command 1) is being
processed, the synchronous-response frame with key (subsystem 2, command 7), which is not
the generic error frame, is delivered on the response sink of that request. -/
theorem C5_counterexample :
    ((2 : Nat), (7 : Nat)) ≠ (1, 1) ∧
    ¬ ((2 : Nat) = 0 ∧ (7 : Nat) = 0) ∧
    processor.handOver 0 false ⟨⟨CommandType.C_SREQ, 1, 1, []⟩, 10, 11⟩
        ⟨CommandType.C_SRSP, 2, 7, [0]⟩
      = Outcome.returned
          [Effect.Write ⟨CommandType.C_SREQ, 1, 1, []⟩,
           Effect.SyncRsp 10 ⟨CommandType.C_SRSP, 2, 7, [0]⟩] := by
  decide

/-- C5, amended: the request being processed is resolved by arrival, not by key: every
inbound frame that is not the generic error frame is delivered on the response sink of the
request being processed, whatever the two keys are, and nothing else is sent on a sink. -/
theorem C5_resolved_by_arrival (S_RES0 : Subsystem) (logOutFrames : Bool)
    (req : processor.Sync) (frame : Frame)
    (h : ¬ (frame.Subsystem = S_RES0 ∧ frame.Command = 0)) :
    processor.handOver S_RES0 logOutFrames req frame
      = Outcome.returned
          (processor.logFrame req.Frame logOutFrames
            ++ [Effect.Write req.Frame, Effect.SyncRsp req.SyncRsp frame]) := by
  simp [processor.handOver, processor.makeSyncResponseProcessor, h,
    processor.makeSyncRequestProcessor]

/-- Witness of the amended C5, at a frame whose key equals the key of the request. -/
theorem C5_resolved_by_arrival_witness :
    ¬ ((1 : Nat) = 0 ∧ (1 : Nat) = 0) ∧
    processor.handOver 0 true ⟨⟨CommandType.C_SREQ, 1, 1, []⟩, 10, 11⟩
        ⟨CommandType.C_SRSP, 1, 1, [9]⟩
      = Outcome.returned
          (processor.logFrame ⟨CommandType.C_SREQ, 1, 1, []⟩ true
            ++ [Effect.Write ⟨CommandType.C_SREQ, 1, 1, []⟩,
                Effect.SyncRsp 10 ⟨CommandType.C_SRSP, 1, 1, [9]⟩]) :=
  ⟨by decide,
   C5_resolved_by_arrival 0 true ⟨⟨CommandType.C_SREQ, 1, 1, []⟩, 10, 11⟩
     ⟨CommandType.C_SRSP, 1, 1, [9]⟩ (by decide)⟩

/-! ## Theorems: znp.go -/

/-- After `Unregister`, `Get` finds no entry under the key. -/
theorem Get_Unregister (registry : znp.RequestRegistry) (key : znp.registryKey) :
    (registry.Unregister key).Get key = none := by
  simp only [znp.RequestRegistry.Get, znp.RequestRegistry.Unregister, Option.map_eq_none']
  rw [List.find?_eq_none]
  intro e he
  have := (List.mem_filter.mp he).2
  simpa using this

/-- After `Register`, `Get` finds the registered entry under the key. -/
theorem Get_Register (registry : znp.RequestRegistry) (key : znp.registryKey)
    (value : znp.registryValue) : (registry.Register key value).Get key = some value := by
  simp [znp.RequestRegistry.Get, znp.RequestRegistry.Register]

/-- C3: on a synchronous-response frame, when an entry is registered under the key of the
frame, the inbound branch cancels the deadline of that entry and sends the frame on the
response sink of that entry, and nothing else (no other sink, not `Errors`, not
`AsyncInbound`); when no entry is registered under the key, it sends exactly one
"Unknown response received" error on `Errors` and nothing else; the registry is unchanged
in both cases. -/
theorem C3_inbound_sync_response (registry : znp.RequestRegistry) (frame : Frame)
    (hty : frame.CommandType = CommandType.C_SRSP) :
    (∀ value : znp.registryValue,
        registry.Get ⟨frame.Subsystem, frame.Command⟩ = some value →
        znp.startProcessor.inbound registry frame
          = (registry, [Effect.Cancel value.deadline, Effect.SyncRsp value.syncRsp frame])) ∧
    (registry.Get ⟨frame.Subsystem, frame.Command⟩ = none →
        znp.startProcessor.inbound registry frame
          = (registry,
              [Effect.Errors
                (GoError.Errorf "Unknown response received: %v" [Arg.frame frame])])) := by
  refine ⟨?_, ?_⟩
  · intro value h
    simp [znp.startProcessor.inbound, hty, h]
  · intro h
    simp [znp.startProcessor.inbound, hty, h]

/-- Witness of C3: a registry with entries under the keys (1, 2) and (3, 4), and a
synchronous-response frame with the key (1, 2). -/
theorem C3_inbound_sync_response_witness :
    znp.startProcessor.inbound
        ((znp.NewRequestRegistry.Register ⟨1, 2⟩ ⟨20, 21, ⟨22, 23⟩⟩).Register ⟨3, 4⟩
          ⟨30, 31, ⟨32, 33⟩⟩)
        ⟨CommandType.C_SRSP, 1, 2, [7]⟩
      = ((znp.NewRequestRegistry.Register ⟨1, 2⟩ ⟨20, 21, ⟨22, 23⟩⟩).Register ⟨3, 4⟩
          ⟨30, 31, ⟨32, 33⟩⟩,
         [Effect.Cancel ⟨22, 23⟩, Effect.SyncRsp 20 ⟨CommandType.C_SRSP, 1, 2, [7]⟩]) :=
  (C3_inbound_sync_response
      ((znp.NewRequestRegistry.Register ⟨1, 2⟩ ⟨20, 21, ⟨22, 23⟩⟩).Register ⟨3, 4⟩
        ⟨30, 31, ⟨32, 33⟩⟩)
      ⟨CommandType.C_SRSP, 1, 2, [7]⟩ rfl).1 ⟨20, 21, ⟨22, 23⟩⟩ (by decide)

/-- `Get` finds no entry under a key exactly when no entry of the registry has the key. -/
theorem Get_eq_none_iff (registry : znp.RequestRegistry) (key : znp.registryKey) :
    registry.Get key = none ↔ ∀ e ∈ registry.entries, e.1 ≠ key := by
  simp only [znp.RequestRegistry.Get, Option.map_eq_none', List.find?_eq_none]
  constructor
  · intro h e he
    simpa using h e he
  · intro h e he
    simpa using h e he

/-- A step other than the registration of a request with the key keeps the key absent. -/
theorem step_keeps_absent (key : znp.registryKey) (registry : znp.RequestRegistry)
    (e : znp.Event) (hreg : e.registers key = false) (habs : registry.Get key = none) :
    (znp.step registry e).1.Get key = none := by
  rw [Get_eq_none_iff] at habs ⊢
  cases e with
  | outbound outgoing d =>
    cases outgoing with
    | sync req =>
      have hk : (⟨req.frame.Subsystem, req.frame.Command⟩ : znp.registryKey) ≠ key := by
        simpa [znp.Event.registers] using hreg
      intro x hx
      simp only [znp.step, znp.startProcessor.outbound, znp.RequestRegistry.Register,
        znp.RequestRegistry.Unregister, List.mem_cons, List.mem_filter] at hx
      rcases hx with rfl | ⟨hx, _⟩
      · exact hk
      · exact habs x hx
    | async req => simpa [znp.step, znp.startProcessor.outbound] using habs
  | inbound frame =>
    have hsame : (znp.startProcessor.inbound registry frame).1 = registry := by
      unfold znp.startProcessor.inbound
      by_cases hct : frame.CommandType = CommandType.C_SRSP
      · rcases h : registry.Get ⟨frame.Subsystem, frame.Command⟩ with _ | v <;> simp [hct, h]
      · simp [hct]
    simpa [znp.step, hsame] using habs
  | deadlineSelect req sel => simpa [znp.step] using habs
  | deadlineUnregister req =>
    intro x hx
    simp only [znp.step, znp.startProcessor.deadlineUnregister,
      znp.RequestRegistry.Unregister, List.mem_filter] at hx
    exact habs x hx.1

/-- A run without a registration of a request with the key keeps the key absent. -/
theorem run_keeps_absent (key : znp.registryKey) (events : List znp.Event) :
    ∀ registry : znp.RequestRegistry, (∀ e ∈ events, e.registers key = false) →
      registry.Get key = none → (znp.run registry events).1.Get key = none := by
  induction events with
  | nil =>
    intro registry _ habs
    simpa [znp.run] using habs
  | cons e es ih =>
    intro registry hreg habs
    simp only [znp.run]
    exact ih _ (fun x hx => hreg x (List.mem_cons_of_mem e hx))
      (step_keeps_absent key registry e (hreg e (List.mem_cons_self e es)) habs)

/-- C4, counterexample: the request with key (1, 2), response sink 20 and error sink 21 is
registered and its timer fires before any reply.  In the first run the reply with key
(1, 2) is handled after the goroutine sent the timeout error and before it unregistered
the key: the reply is delivered on sink 20 of the timed-out caller and no "Unknown
response received" error is sent.  In the second run the goroutine has unregistered the
key and a second request with key (1, 2) and response sink 30 has been registered when
the reply is handled: the reply is delivered on sink 30 and no "Unknown response received"
error is sent. -/
theorem C4_counterexample :
    znp.run znp.NewRequestRegistry
        [znp.Event.outbound (znp.Outgoing.sync ⟨⟨CommandType.C_SREQ, 1, 2, []⟩, 20, 21⟩) ⟨22, 23⟩,
         znp.Event.deadlineSelect ⟨⟨CommandType.C_SREQ, 1, 2, []⟩, 20, 21⟩
           znp.DeadlineSelect.timerC,
         znp.Event.inbound ⟨CommandType.C_SRSP, 1, 2, [7]⟩,
         znp.Event.deadlineUnregister ⟨⟨CommandType.C_SREQ, 1, 2, []⟩, 20, 21⟩]
      = (znp.NewRequestRegistry,
         [Effect.Write ⟨CommandType.C_SREQ, 1, 2, []⟩,
          Effect.SyncErr 21
            (GoError.Errorf
              "timed out while waiting response for command: %b sent to subsystem: %s "
              [Arg.byte 2, Arg.subsystem 1]),
          Effect.Cancel ⟨22, 23⟩,
          Effect.SyncRsp 20 ⟨CommandType.C_SRSP, 1, 2, [7]⟩]) ∧
    znp.run znp.NewRequestRegistry
        [znp.Event.outbound (znp.Outgoing.sync ⟨⟨CommandType.C_SREQ, 1, 2, []⟩, 20, 21⟩) ⟨22, 23⟩,
         znp.Event.deadlineSelect ⟨⟨CommandType.C_SREQ, 1, 2, []⟩, 20, 21⟩
           znp.DeadlineSelect.timerC,
         znp.Event.deadlineUnregister ⟨⟨CommandType.C_SREQ, 1, 2, []⟩, 20, 21⟩,
         znp.Event.outbound (znp.Outgoing.sync ⟨⟨CommandType.C_SREQ, 1, 2, []⟩, 30, 31⟩) ⟨32, 33⟩,
         znp.Event.inbound ⟨CommandType.C_SRSP, 1, 2, [7]⟩]
      = (znp.NewRequestRegistry.Register ⟨1, 2⟩ ⟨30, 31, ⟨32, 33⟩⟩,
         [Effect.Write ⟨CommandType.C_SREQ, 1, 2, []⟩,
          Effect.SyncErr 21
            (GoError.Errorf
              "timed out while waiting response for command: %b sent to subsystem: %s "
              [Arg.byte 2, Arg.subsystem 1]),
          Effect.Write ⟨CommandType.C_SREQ, 1, 2, []⟩,
          Effect.Cancel ⟨32, 33⟩,
          Effect.SyncRsp 30 ⟨CommandType.C_SRSP, 1, 2, [7]⟩]) := by
  decide

/-- C4, amended: a synchronous request is registered under its key by the outbound branch;
when the timer of its deadline fires, the `select` of its goroutine sends exactly one
timeout error carrying the command and the subsystem of the frame on the error sink of the
request and nothing on its response sink; the `Unregister` that follows removes the key,
in whatever state the registry is by then; after that `Unregister`, and through any run of
the engine in which no request with the same key is registered again, a synchronous-response
frame with the key yields exactly one "Unknown response received" error on `Errors` and is
delivered to no response sink. -/
theorem C4_timeout_unregister_then_unknown (registry0 registry : znp.RequestRegistry)
    (req : znp.Sync) (d : deadline) (events : List znp.Event) (late : Frame)
    (hty : late.CommandType = CommandType.C_SRSP)
    (hs : late.Subsystem = req.frame.Subsystem) (hc : late.Command = req.frame.Command)
    (hno : ∀ e ∈ events, e.registers ⟨req.frame.Subsystem, req.frame.Command⟩ = false) :
    (znp.startProcessor.outbound registry0 (znp.Outgoing.sync req) d).1.Get
        ⟨req.frame.Subsystem, req.frame.Command⟩ = some ⟨req.syncRsp, req.syncErr, d⟩ ∧
    znp.startProcessor.deadlineSelect req znp.DeadlineSelect.timerC
      = [Effect.SyncErr req.syncErr
          (GoError.Errorf
            "timed out while waiting response for command: %b sent to subsystem: %s "
            [Arg.byte req.frame.Command, Arg.subsystem req.frame.Subsystem])] ∧
    (znp.startProcessor.deadlineUnregister registry req).Get
        ⟨req.frame.Subsystem, req.frame.Command⟩ = none ∧
    znp.startProcessor.inbound
        (znp.run (znp.startProcessor.deadlineUnregister registry req) events).1 late
      = ((znp.run (znp.startProcessor.deadlineUnregister registry req) events).1,
          [Effect.Errors
            (GoError.Errorf "Unknown response received: %v" [Arg.frame late])]) := by
  have hget : (znp.startProcessor.deadlineUnregister registry req).Get
      ⟨req.frame.Subsystem, req.frame.Command⟩ = none := by
    simpa [znp.startProcessor.deadlineUnregister] using
      Get_Unregister registry ⟨req.frame.Subsystem, req.frame.Command⟩
  have hrun := run_keeps_absent ⟨req.frame.Subsystem, req.frame.Command⟩ events _ hno hget
  refine ⟨?_, ?_, hget, ?_⟩
  · simp [znp.startProcessor.outbound, Get_Register]
  · simp [znp.startProcessor.deadlineSelect, Timer.Stop]
  · simp [znp.startProcessor.inbound, hty, hs, hc, hrun]

/-- Witness of the amended C4: the request with key (1, 2) is registered, its goroutine
sends the timeout error and unregisters the key; a request with key (3, 4) is then
registered and a reply with key (3, 4) is handled, and the reply with key (1, 2) arrives
after that. -/
theorem C4_timeout_unregister_then_unknown_witness :
    znp.startProcessor.inbound
        (znp.run
          (znp.startProcessor.deadlineUnregister
            (znp.startProcessor.outbound znp.NewRequestRegistry
              (znp.Outgoing.sync ⟨⟨CommandType.C_SREQ, 1, 2, []⟩, 20, 21⟩) ⟨22, 23⟩).1
            ⟨⟨CommandType.C_SREQ, 1, 2, []⟩, 20, 21⟩)
          [znp.Event.outbound (znp.Outgoing.sync ⟨⟨CommandType.C_SREQ, 3, 4, []⟩, 30, 31⟩)
             ⟨32, 33⟩,
           znp.Event.inbound ⟨CommandType.C_SRSP, 3, 4, [9]⟩]).1
        ⟨CommandType.C_SRSP, 1, 2, [7]⟩
      = ((znp.run
          (znp.startProcessor.deadlineUnregister
            (znp.startProcessor.outbound znp.NewRequestRegistry
              (znp.Outgoing.sync ⟨⟨CommandType.C_SREQ, 1, 2, []⟩, 20, 21⟩) ⟨22, 23⟩).1
            ⟨⟨CommandType.C_SREQ, 1, 2, []⟩, 20, 21⟩)
          [znp.Event.outbound (znp.Outgoing.sync ⟨⟨CommandType.C_SREQ, 3, 4, []⟩, 30, 31⟩)
             ⟨32, 33⟩,
           znp.Event.inbound ⟨CommandType.C_SRSP, 3, 4, [9]⟩]).1,
          [Effect.Errors
            (GoError.Errorf "Unknown response received: %v"
              [Arg.frame ⟨CommandType.C_SRSP, 1, 2, [7]⟩])]) :=
  (C4_timeout_unregister_then_unknown znp.NewRequestRegistry
      (znp.startProcessor.outbound znp.NewRequestRegistry
        (znp.Outgoing.sync ⟨⟨CommandType.C_SREQ, 1, 2, []⟩, 20, 21⟩) ⟨22, 23⟩).1
      ⟨⟨CommandType.C_SREQ, 1, 2, []⟩, 20, 21⟩ ⟨22, 23⟩
      [znp.Event.outbound (znp.Outgoing.sync ⟨⟨CommandType.C_SREQ, 3, 4, []⟩, 30, 31⟩)
         ⟨32, 33⟩,
       znp.Event.inbound ⟨CommandType.C_SRSP, 3, 4, [9]⟩]
      ⟨CommandType.C_SRSP, 1, 2, [7]⟩ rfl rfl rfl (by decide)).2.2.2

/-! ## Theorems: payload/payload.go -/

/-- C9: `order` is big-endian exactly on the tag "be" and little-endian on the empty tag
and every other tag (such as "le", "BE", "be "); the bytes 0x01, 0x02 read as a 16-bit
value give 0x0102 under `order "be"` and 0x0201 under `order ""`. -/
theorem C9_order (t : payload.tag) :
    (payload.order t = payload.ByteOrder.BigEndian ↔ t = payload.ascii "be") ∧
    (payload.order t = payload.ByteOrder.LittleEndian ↔ t ≠ payload.ascii "be") ∧
    payload.order (payload.ascii "") = payload.ByteOrder.LittleEndian ∧
    payload.order (payload.ascii "le") = payload.ByteOrder.LittleEndian ∧
    payload.order (payload.ascii "BE") = payload.ByteOrder.LittleEndian ∧
    payload.order (payload.ascii "be ") = payload.ByteOrder.LittleEndian ∧
    (payload.order (payload.ascii "be")).Uint16 [0x01, 0x02] = Outcome.returned 0x0102 ∧
    (payload.order (payload.ascii "")).Uint16 [0x01, 0x02] = Outcome.returned 0x0201 := by
  have hbe : payload.ascii "be" = [98, 101] := by decide
  refine ⟨?_, ?_, by decide, by decide, by decide, by decide, by decide, by decide⟩
  · rw [hbe]
    unfold payload.order
    split <;> simp_all
  · rw [hbe]
    unfold payload.order
    split <;> simp_all

/-- The digit switch of `ParseUint` reads a hexadecimal digit as its value. -/
theorem digit_of_hex (c : Nat) (h : spec.isHexDigit c) :
    strconv.digit c = some (spec.hexDigitValue c) ∧ spec.hexDigitValue c < 16 := by
  rcases h with ⟨h1, h2⟩ | ⟨h1, h2⟩ | ⟨h1, h2⟩ <;> interval_cases c <;> decide

/-- The digit switch of `ParseUint` reads a binary digit as its value. -/
theorem digit_of_bin (c : Nat) (h : spec.isBinDigit c) :
    strconv.digit c = some (spec.binDigitValue c) ∧ spec.binDigitValue c < 2 := by
  rcases h with h | h <;> subst h <;> decide

/-- The loop of `ParseUint` on digits of the base, when the number read stays within
`maxVal`: it returns that number and no error. -/
theorem loop_digits (base cutoff maxVal : Nat) (val : Nat → Nat) (hb : 2 ≤ base)
    (hcut : cutoff = (2 ^ 64 - 1) / base + 1) (hmax : maxVal < 2 ^ 64) :
    ∀ (ds : List Nat) (n : Nat),
      (∀ c ∈ ds, strconv.digit c = some (val c) ∧ val c < base) →
      n * base ^ ds.length + spec.denote base val ds ≤ maxVal →
      strconv.ParseUint.loop base cutoff maxVal ds n
        = (n * base ^ ds.length + spec.denote base val ds, none) := by
  intro ds
  induction ds with
  | nil =>
    intro n _ _
    simp [strconv.ParseUint.loop, spec.denote]
  | cons c cs ih =>
    intro n hd hle
    obtain ⟨hdc, hvc⟩ := hd c (List.mem_cons_self c cs)
    have hcs : ∀ x ∈ cs, strconv.digit x = some (val x) ∧ val x < base :=
      fun x hx => hd x (List.mem_cons_of_mem c hx)
    have hden : spec.denote base val (c :: cs)
        = spec.denote base val cs + base ^ cs.length * val c := by
      simp [spec.denote, Nat.ofDigits_append]
    have htot : n * base ^ (c :: cs).length + spec.denote base val (c :: cs)
        = (n * base + val c) * base ^ cs.length + spec.denote base val cs := by
      rw [hden, List.length_cons, pow_succ]
      ring
    have hpow : 1 ≤ base ^ cs.length := Nat.one_le_pow _ _ (by omega)
    have hstep : n * base + val c ≤ maxVal := by
      have h1 : n * base + val c ≤ (n * base + val c) * base ^ cs.length :=
        Nat.le_mul_of_pos_right _ hpow
      omega
    have hnb : n * base ≤ 2 ^ 64 - 1 := by omega
    have hncut : ¬ n ≥ cutoff := by
      have : n ≤ (2 ^ 64 - 1) / base := (Nat.le_div_iff_mul_le (by omega)).mpr hnb
      omega
    have hn0 : (n * base) % 2 ^ 64 = n * base := Nat.mod_eq_of_lt (by omega)
    have hn1 : (n * base + val c) % 2 ^ 64 = n * base + val c := Nat.mod_eq_of_lt (by omega)
    have hrec := ih (n * base + val c) hcs (by rw [← htot]; exact hle)
    rw [htot, ← hrec]
    simp only [strconv.ParseUint.loop, hdc]
    rw [if_neg (by omega), if_neg hncut]
    simp only [hn0, hn1]
    rw [if_neg (by omega)]

/-- The largest value `ParseUint` accepts for a bit size between 1 and 64. -/
theorem maxVal_eq (bitSize : Nat) (h1 : 1 ≤ bitSize) (h64 : bitSize ≤ 64) :
    ((1 <<< bitSize) % 2 ^ 64 + 2 ^ 64 - 1) % 2 ^ 64 = 2 ^ bitSize - 1 := by
  rw [Nat.one_shiftLeft]
  rcases Nat.lt_or_ge bitSize 64 with h | h
  · have hlt : 2 ^ bitSize < 2 ^ 64 := Nat.pow_lt_pow_right (by omega) h
    have hpos : 1 ≤ 2 ^ bitSize := Nat.one_le_two_pow
    rw [Nat.mod_eq_of_lt hlt]
    omega
  · have : bitSize = 64 := by omega
    subst this
    decide

/-- The function `ParseUint` on a non-empty run of digits of the base whose bit size is the
one `bitmaskBits` passes: it returns the number the digits denote. -/
theorem ParseUint_digits (base bits : Nat) (val : Nat → Nat) (ds : List Nat)
    (hb : 2 ≤ base) (hb36 : base ≤ 36) (hbits : base = 2 ^ bits) (hne : 1 ≤ ds.length)
    (hlen : ds.length * bits ≤ 64) (hbpos : 1 ≤ bits)
    (hd : ∀ c ∈ ds, strconv.digit c = some (val c) ∧ val c < base) :
    strconv.ParseUint ds base (ds.length * bits) = (spec.denote base val ds, none) ∧
    spec.denote base val ds < 2 ^ 64 := by
  have hlt : spec.denote base val ds < base ^ ds.length := by
    have := Nat.ofDigits_lt_base_pow_length (b := base) (l := (ds.map val).reverse)
      (by omega) (by
        intro x hx
        rw [List.mem_reverse, List.mem_map] at hx
        obtain ⟨c, hc, rfl⟩ := hx
        exact (hd c hc).2)
    simpa [spec.denote] using this
  have hpow : base ^ ds.length = 2 ^ (ds.length * bits) := by
    rw [hbits, ← pow_mul, Nat.mul_comm]
  have hbs1 : 1 ≤ ds.length * bits := Nat.mul_pos hne hbpos
  have hle64 : 2 ^ (ds.length * bits) ≤ 2 ^ 64 := Nat.pow_le_pow_right (by omega) hlen
  have hnil : ds ≠ [] := by
    intro h
    rw [h] at hne
    simp at hne
  refine ⟨?_, by omega⟩
  unfold strconv.ParseUint
  rw [if_neg hnil, if_neg (by omega), if_neg (by omega), if_neg (by omega)]
  simp only []
  rw [maxVal_eq _ hbs1 hlen]
  have hpos : 1 ≤ 2 ^ (ds.length * bits) := Nat.one_le_two_pow
  have := loop_digits base ((2 ^ 64 - 1) / base + 1) (2 ^ (ds.length * bits) - 1) val hb rfl
    (by omega) ds 0 hd (by omega)
  simpa using this

/-- C6: on a tag "0x" followed by 1 to 16 hexadecimal digits (either case) `bitmaskBits`
returns the unsigned 64-bit number the digits denote in base 16, and on a tag "0b"
followed by 1 to 64 binary digits it returns the number the digits denote in base 2,
leading zeros included. -/
theorem C6_bitmaskBits_value (ds : List Nat) (hne : 1 ≤ ds.length) :
    (ds.length ≤ 16 → (∀ c ∈ ds, spec.isHexDigit c) →
      payload.bitmaskBits (payload.ascii "0x" ++ ds)
        = Outcome.returned (spec.denote 16 spec.hexDigitValue ds) ∧
      spec.denote 16 spec.hexDigitValue ds < 2 ^ 64) ∧
    (ds.length ≤ 64 → (∀ c ∈ ds, spec.isBinDigit c) →
      payload.bitmaskBits (payload.ascii "0b" ++ ds)
        = Outcome.returned (spec.denote 2 spec.binDigitValue ds) ∧
      spec.denote 2 spec.binDigitValue ds < 2 ^ 64) := by
  have hx : payload.ascii "0x" = [48, 120] := by decide
  have hbn : payload.ascii "0b" = [48, 98] := by decide
  refine ⟨?_, ?_⟩
  · intro hlen hd
    have h := ParseUint_digits 16 4 spec.hexDigitValue ds (by omega) (by omega) (by norm_num)
      hne (by omega) (by omega) (fun c hc => digit_of_hex c (hd c hc))
    refine ⟨?_, h.2⟩
    rw [hx]
    simp [payload.bitmaskBits, h.1]
  · intro hlen hd
    have h := ParseUint_digits 2 1 spec.binDigitValue ds (by omega) (by omega) (by norm_num)
      hne (by omega) (by omega) (fun c hc => digit_of_bin c (hd c hc))
    rw [Nat.mul_one] at h
    refine ⟨?_, h.2⟩
    rw [hbn]
    simp [payload.bitmaskBits, h.1]

/-- Witness of C6: "0b00001111" gives 15, "0b11110000" gives 240 and "0x0F" gives 15. -/
theorem C6_bitmaskBits_value_witness :
    payload.bitmaskBits (payload.ascii "0b" ++ payload.ascii "00001111") = Outcome.returned 15 ∧
    payload.bitmaskBits (payload.ascii "0b" ++ payload.ascii "11110000") = Outcome.returned 240 ∧
    payload.bitmaskBits (payload.ascii "0x" ++ payload.ascii "0F") = Outcome.returned 15 :=
  ⟨((C6_bitmaskBits_value (payload.ascii "00001111") (by decide)).2 (by decide) (by decide)).1,
   ((C6_bitmaskBits_value (payload.ascii "11110000") (by decide)).2 (by decide) (by decide)).1,
   ((C6_bitmaskBits_value (payload.ascii "0F") (by decide)).1 (by decide) (by decide)).1⟩

/-- C7: on the malformed literals "0xZZ", "0b0120", "0x" (no digits), "0b" (no digits),
"0x" followed by 17 digits and "0b" followed by 65 digits, `bitmaskBits` discards the
error of `ParseUint` and returns the mask 0; it does not panic. -/
theorem C7_malformed_digits_return_zero :
    payload.bitmaskBits (payload.ascii "0xZZ") = Outcome.returned 0 ∧
    payload.bitmaskBits (payload.ascii "0b0120") = Outcome.returned 0 ∧
    payload.bitmaskBits (payload.ascii "0x") = Outcome.returned 0 ∧
    payload.bitmaskBits (payload.ascii "0b") = Outcome.returned 0 ∧
    payload.bitmaskBits (payload.ascii "0x10000000000000000") = Outcome.returned 0 ∧
    payload.bitmaskBits
        (payload.ascii "0b11111111111111111111111111111111111111111111111111111111111111111")
      = Outcome.returned 0 := by
  decide

/-! ## Theorems: util/util.go -/

/-- Bitwise and commutes with a multiplication by a power of two. -/
theorem land_two_pow_mul (k x y : Nat) : (2 ^ k * x) &&& (2 ^ k * y) = 2 ^ k * (x &&& y) := by
  apply Nat.eq_of_testBit_eq
  intro i
  simp only [Nat.testBit_and, Nat.testBit_mul_pow_two]
  cases decide (i ≥ k) <;> simp

/-- An odd number below `2 ^ j` and its negation modulo `2 ^ j` share the lowest bit only. -/
theorem land_neg_of_odd (j m : Nat) (hodd : m % 2 = 1) (hlt : m < 2 ^ j) :
    m &&& (2 ^ j - m) = 1 := by
  have hm : m = (m - 1) + 1 := by omega
  have hlt1 : m - 1 < 2 ^ j := by omega
  have hj : 0 < j := by
    rcases Nat.eq_zero_or_pos j with h | h
    · subst h
      simp at hlt
      omega
    · exact h
  apply Nat.eq_of_testBit_eq
  intro i
  rw [Nat.testBit_and]
  conv_lhs => rw [hm]
  rw [Nat.testBit_two_pow_sub_succ hlt1]
  rw [← hm]
  cases i with
  | zero =>
    have h1 : (m - 1) % 2 = 0 := by omega
    simp [Nat.testBit_zero, hodd, h1, hj]
  | succ i =>
    have hdiv : (m - 1) / 2 = m / 2 := by omega
    have hone : Nat.testBit 1 (i + 1) = false := by
      rw [Nat.testBit_succ]
      simp
    rw [hone, Nat.testBit_succ, Nat.testBit_succ, hdiv]
    cases Nat.testBit (m / 2) i <;> simp

/-- Negation of a non-zero `uint64`. -/
theorem neg64_eq (n : Nat) (h0 : n ≠ 0) (h64 : n < 2 ^ 64) : util.neg64 n = 2 ^ 64 - n := by
  unfold util.neg64
  rw [Nat.mod_eq_of_lt h64]
  exact Nat.mod_eq_of_lt (by omega)

/-- The lowest set bit of `2 ^ k * m` with `m` odd, isolated by `n & -n`. -/
theorem land_neg64 (k m : Nat) (hodd : m % 2 = 1) (h64 : 2 ^ k * m < 2 ^ 64) :
    (2 ^ k * m) &&& util.neg64 (2 ^ k * m) = 2 ^ k ∧ k ≤ 63 := by
  have hkpos : 0 < 2 ^ k := Nat.two_pow_pos k
  have hm1 : 1 ≤ m := by omega
  have hk : k < 64 := by
    have h1 : 2 ^ k ≤ 2 ^ k * m := Nat.le_mul_of_pos_right _ hm1
    exact (Nat.pow_lt_pow_iff_right (by omega : 1 < 2)).mp (by omega)
  have hsplit : 2 ^ 64 = 2 ^ k * 2 ^ (64 - k) := by
    rw [← pow_add]
    congr 1
    omega
  have hmlt : m < 2 ^ (64 - k) := by
    rw [hsplit] at h64
    exact Nat.lt_of_mul_lt_mul_left h64
  have hne : 2 ^ k * m ≠ 0 := by
    have := Nat.mul_pos hkpos hm1
    omega
  refine ⟨?_, by omega⟩
  rw [neg64_eq _ hne h64]
  have hsub : 2 ^ 64 - 2 ^ k * m = 2 ^ k * (2 ^ (64 - k) - m) := by
    rw [Nat.mul_sub, ← hsplit]
  rw [hsub, land_two_pow_mul, land_neg_of_odd _ _ hodd hmlt, Nat.mul_one]

/-- The bit length of zero. -/
theorem bitLength_go_zero (fuel : Nat) : util.bitLength.go fuel 0 = 0 := by
  cases fuel <;> simp [util.bitLength.go]

/-- The bit length of a power of two, given enough fuel. -/
theorem bitLength_go_two_pow (fuel : Nat) : ∀ k : Nat, k < fuel →
    util.bitLength.go fuel (2 ^ k) = k + 1 := by
  induction fuel with
  | zero => intro k hk; omega
  | succ f ih =>
    intro k hk
    have hpos : 2 ^ k ≠ 0 := by
      have := Nat.two_pow_pos k
      omega
    rw [util.bitLength.go, if_neg hpos]
    cases k with
    | zero => simp [bitLength_go_zero]
    | succ k =>
      have hdiv : 2 ^ (k + 1) / 2 = 2 ^ k := by
        rw [pow_succ]
        exact Nat.mul_div_cancel _ (by omega)
      rw [hdiv, ih k (by omega)]

/-- The function `FirstBitPosition` on a value whose lowest set bit is bit `k`. -/
theorem FirstBitPosition_of_low (n k : Nat) (hk : k ≤ 63)
    (hlow : n &&& util.neg64 n = 2 ^ k) : util.FirstBitPosition n = some k := by
  have hlen : util.bitLength (2 ^ k) = k + 1 := bitLength_go_two_pow 64 k (by omega)
  have hpos : 2 ^ k ≠ 0 := by
    have := Nat.two_pow_pos k
    omega
  have hfloat : util.float64 (2 ^ k) = some (2 ^ k) := by
    unfold util.float64
    rw [hlen, if_pos]
    rcases Nat.lt_or_ge k 53 with h | h
    · left
      omega
    · right
      apply Nat.mod_eq_zero_of_dvd
      exact Nat.pow_dvd_pow 2 (by omega)
  have hlog : util.Log2 (2 ^ k) = some k := by
    unfold util.Log2 util.Frexp
    rw [if_neg hpos]
    simp only [hlen]
    rw [if_pos (by rw [pow_succ]; ring)]
    simp
  unfold util.FirstBitPosition
  rw [hlow, hfloat]
  simp only [hlog]
  rw [if_pos (by omega)]

/-- C8: for every non-zero unsigned 64-bit mask `n`, `FirstBitPosition n` returns the
position `k`, at most 63, of the lowest set bit of `n`: bit `k` of `n` is 1, every bit
below `k` is 0, `n & -n` with the negation modulo `2 ^ 64` equals `2 ^ k`, and `n >> k` is
odd.  The masks 0b11110000, 0b00001111 and `2 ^ 63` give 4, 0 and 63. -/
theorem C8_FirstBitPosition :
    (∀ n : Nat, n ≠ 0 → n < 2 ^ 64 →
      ∃ k : Nat, util.FirstBitPosition n = some k ∧ k ≤ 63 ∧ n.testBit k = true ∧
        (∀ i : Nat, i < k → n.testBit i = false) ∧
        n &&& util.neg64 n = 2 ^ k ∧ (n >>> k) % 2 = 1) ∧
    util.FirstBitPosition 0b11110000 = some 4 ∧
    util.FirstBitPosition 0b00001111 = some 0 ∧
    util.FirstBitPosition (2 ^ 63) = some 63 := by
  refine ⟨?_, by decide, by decide, by decide⟩
  intro n h0 h64
  obtain ⟨k, m, hm, rfl⟩ := Nat.exists_eq_two_pow_mul_odd h0
  have hodd : m % 2 = 1 := Nat.odd_iff.mp hm
  obtain ⟨hlow, hk⟩ := land_neg64 k m hodd h64
  refine ⟨k, FirstBitPosition_of_low _ k hk hlow, hk, ?_, ?_, hlow, ?_⟩
  · rw [Nat.testBit_mul_pow_two]
    simp [Nat.testBit_zero, hodd]
  · intro i hi
    rw [Nat.testBit_mul_pow_two]
    simp [Nat.not_le_of_lt hi]
  · rw [Nat.shiftRight_eq_div_pow, Nat.mul_div_cancel_left _ (Nat.two_pow_pos k)]
    exact hodd

/-- Witness of C8: the mask 0b11110000. -/
theorem C8_FirstBitPosition_witness :
    ∃ k : Nat, util.FirstBitPosition 0b11110000 = some k ∧ k ≤ 63 ∧
      (0b11110000 : Nat).testBit k = true ∧
      (∀ i : Nat, i < k → (0b11110000 : Nat).testBit i = false) ∧
      0b11110000 &&& util.neg64 0b11110000 = 2 ^ k ∧ (0b11110000 >>> k) % 2 = 1 :=
  C8_FirstBitPosition.1 0b11110000 (by decide) (by decide)

end CcGo
